import Mathlib

/-!
Verification development for the `mcp-router` repository: a shallow Lean 4
embedding of the OAuth 2.1 manager (`src/services/OAuthManager.js`), the
enhanced MCP client (`src/services/MCPClientEnhanced.js`) and the enhanced
connection manager, together with proofs settling the frozen claims about
them.

Modelling conventions, applied uniformly:
- JavaScript `Map` objects become association lists `List (String × α)`
  with `alGet` / `alSet` / `alDel` mirroring `get` / `set` / `delete`.
- `Date.now()` is modelled by an explicit `now : Int` parameter (milliseconds);
  one synchronous operation is treated as happening at one time instant.
- Network effects (`fetch`) are modelled by oracle parameters describing the
  remote's response; each call site's possible outcomes follow the source's
  branching on `response.ok` versus a thrown fetch error.
- Throwing JavaScript functions return `Except`; `null`/`undefined` results
  become `Option`.  JavaScript truthiness of optional strings is `jsTruthy`
  (absent and `""` are falsy).
-/

/-- JavaScript truthiness of an optional string: `undefined`/`null` and the
empty string are falsy. -/
def jsTruthy : Option String → Bool
  | Option.none => false
  | some s => s ≠ ""

/-- JavaScript `a || b` for an optional string `a` and default `b`. -/
def jsOrStr (a : Option String) (b : String) : String :=
  match a with
  | some s => if s = "" then b else s
  | Option.none => b

/-- Model of `Map.get`: first binding of the key, if any. -/
def alGet {α : Type} : List (String × α) → String → Option α
  | [], _ => Option.none
  | (k', v) :: rest, k => if k' = k then some v else alGet rest k

/-- Model of `Map.delete`: remove the binding of the key. -/
def alDel {α : Type} : List (String × α) → String → List (String × α)
  | [], _ => []
  | (k', v) :: rest, k => if k' = k then alDel rest k else (k', v) :: alDel rest k

/-- Model of `Map.set`: (re)bind the key. -/
def alSet {α : Type} (m : List (String × α)) (k : String) (v : α) : List (String × α) :=
  (k, v) :: alDel m k

theorem alGet_alDel_self {α : Type} (m : List (String × α)) (k : String) :
    alGet (alDel m k) k = Option.none := by
  induction m with
  | nil => rfl
  | cons hd tl ih =>
    rcases hd with ⟨a, v⟩
    by_cases h : a = k
    · simp [alDel, h, ih]
    · simp [alDel, alGet, h, ih]

theorem alGet_alSet_self {α : Type} (m : List (String × α)) (k : String) (v : α) :
    alGet (alSet m k v) k = some v := by
  simp [alSet, alGet]

theorem alGet_alDel_ne {α : Type} (m : List (String × α)) (k k' : String) (h : k ≠ k') :
    alGet (alDel m k) k' = alGet m k' := by
  induction m with
  | nil => rfl
  | cons hd tl ih =>
    rcases hd with ⟨a, v⟩
    by_cases hk : a = k
    · subst hk
      simp [alDel, alGet, h, ih]
    · by_cases hk' : a = k'
      · subst hk'
        simp [alDel, alGet, hk]
      · simp [alDel, alGet, hk, hk', ih]

theorem alGet_alSet_ne {α : Type} (m : List (String × α)) (k k' : String) (v : α)
    (h : k ≠ k') : alGet (alSet m k v) k' = alGet m k' := by
  simp [alSet, alGet, h, alGet_alDel_ne m k k' h]

/-- The keys of an association list. -/
def alKeys {α : Type} (m : List (String × α)) : List String := m.map Prod.fst

theorem mem_alKeys_alDel {α : Type} {m : List (String × α)} {k x : String}
    (h : x ∈ alKeys (alDel m k)) : x ∈ alKeys m := by
  induction m with
  | nil => simp [alDel, alKeys] at h
  | cons hd tl ih =>
    rcases hd with ⟨a, v⟩
    by_cases hk : a = k
    · simp only [alDel, if_pos hk] at h
      exact List.mem_cons_of_mem _ (ih h)
    · simp only [alDel, if_neg hk, alKeys, List.map_cons, List.mem_cons] at h ⊢
      rcases h with h | h
      · exact Or.inl h
      · exact Or.inr (ih h)

theorem not_mem_alKeys_alDel {α : Type} (m : List (String × α)) (k : String) :
    k ∉ alKeys (alDel m k) := by
  induction m with
  | nil => simp [alDel, alKeys]
  | cons hd tl ih =>
    rcases hd with ⟨a, v⟩
    by_cases h : a = k
    · simp only [alDel, if_pos h]
      exact ih
    · simp only [alDel, if_neg h, alKeys, List.map_cons, List.mem_cons]
      rintro (rfl | hm)
      · exact h rfl
      · exact ih hm

theorem nodup_alKeys_alDel {α : Type} (m : List (String × α)) (k : String)
    (h : (alKeys m).Nodup) : (alKeys (alDel m k)).Nodup := by
  induction m with
  | nil => simp [alDel, alKeys]
  | cons hd tl ih =>
    rcases hd with ⟨a, v⟩
    simp only [alKeys, List.map_cons, List.nodup_cons] at h
    by_cases hk : a = k
    · simp only [alDel, if_pos hk]
      exact ih h.2
    · simp only [alDel, if_neg hk, alKeys, List.map_cons, List.nodup_cons]
      exact ⟨fun hm => h.1 (mem_alKeys_alDel hm), ih h.2⟩

theorem nodup_alKeys_alSet {α : Type} (m : List (String × α)) (k : String) (v : α)
    (h : (alKeys m).Nodup) : (alKeys (alSet m k v)).Nodup := by
  simp only [alSet, alKeys, List.map_cons, List.nodup_cons]
  exact ⟨not_mem_alKeys_alDel m k, nodup_alKeys_alDel m k h⟩

/-! ## base64url (Node `Buffer.toString('base64url')`: standard alphabet with
`-`/`_`, no padding) -/

def b64Alphabet : List Char :=
  "ABCDEFGHIJKLMNOPQRSTUVWXYZabcdefghijklmnopqrstuvwxyz0123456789-_".data

def b64Char (n : Nat) : Char := b64Alphabet.getD n 'A'

/-- Position of a character in a list (0 when absent). -/
def charIdxFrom : List Char → Char → Nat
  | [], _ => 0
  | a :: rest, c => if a = c then 0 else charIdxFrom rest c + 1

def b64Idx (c : Char) : Nat := charIdxFrom b64Alphabet c

/-- The base64url encoding of a byte list, three bytes at a time, no padding. -/
def base64urlEncode : List Nat → List Char
  | [] => []
  | [b1] => [b64Char (b1 / 4), b64Char (b1 % 4 * 16)]
  | [b1, b2] => [b64Char (b1 / 4), b64Char (b1 % 4 * 16 + b2 / 16), b64Char (b2 % 16 * 4)]
  | b1 :: b2 :: b3 :: rest =>
      b64Char (b1 / 4) :: b64Char (b1 % 4 * 16 + b2 / 16) ::
        b64Char (b2 % 16 * 4 + b3 / 64) :: b64Char (b3 % 64) :: base64urlEncode rest

/-- The base64url decoding (padding-free), inverse of `base64urlEncode`. -/
def base64urlDecode : List Char → List Nat
  | [] => []
  | [_] => []
  | [c1, c2] => [4 * b64Idx c1 + b64Idx c2 / 16]
  | [c1, c2, c3] =>
      [4 * b64Idx c1 + b64Idx c2 / 16, b64Idx c2 % 16 * 16 + b64Idx c3 / 4]
  | c1 :: c2 :: c3 :: c4 :: rest =>
      (4 * b64Idx c1 + b64Idx c2 / 16) :: (b64Idx c2 % 16 * 16 + b64Idx c3 / 4) ::
        (b64Idx c3 % 4 * 64 + b64Idx c4) :: base64urlDecode rest

theorem b64Idx_b64Char (n : Nat) (h : n < 64) : b64Idx (b64Char n) = n := by
  interval_cases n <;> rfl

/-- Character count of a base64url encoding given the residue of the byte count. -/
def b64PadLen : Nat → Nat
  | 0 => 0
  | 1 => 2
  | _ => 3

theorem base64urlEncode_length :
    ∀ bs : List Nat, (base64urlEncode bs).length = 4 * (bs.length / 3) + b64PadLen (bs.length % 3)
  | [] => by simp [base64urlEncode, b64PadLen]
  | [b1] => by simp [base64urlEncode, b64PadLen]
  | [b1, b2] => by simp [base64urlEncode, b64PadLen]
  | b1 :: b2 :: b3 :: rest => by
      have ih := base64urlEncode_length rest
      simp only [base64urlEncode, List.length_cons, ih]
      have h3 : (rest.length + 1 + 1 + 1) / 3 = rest.length / 3 + 1 := by omega
      have h4 : (rest.length + 1 + 1 + 1) % 3 = rest.length % 3 := by omega
      rw [h3, h4]; ring

theorem base64urlDecode_base64urlEncode :
    ∀ bs : List Nat, (∀ b ∈ bs, b < 256) → base64urlDecode (base64urlEncode bs) = bs
  | [], _ => rfl
  | [b1], h => by
      have hb1 : b1 < 256 := h b1 (by simp)
      simp only [base64urlEncode, base64urlDecode]
      rw [b64Idx_b64Char (b1 / 4) (by omega), b64Idx_b64Char (b1 % 4 * 16) (by omega)]
      simp only [List.cons.injEq, and_true]
      omega
  | [b1, b2], h => by
      have hb1 : b1 < 256 := h b1 (by simp)
      have hb2 : b2 < 256 := h b2 (by simp)
      simp only [base64urlEncode, base64urlDecode]
      rw [b64Idx_b64Char (b1 / 4) (by omega),
        b64Idx_b64Char (b1 % 4 * 16 + b2 / 16) (by omega),
        b64Idx_b64Char (b2 % 16 * 4) (by omega)]
      simp only [List.cons.injEq, and_true]
      omega
  | b1 :: b2 :: b3 :: rest, h => by
      have hb1 : b1 < 256 := h b1 (by simp)
      have hb2 : b2 < 256 := h b2 (by simp)
      have hb3 : b3 < 256 := h b3 (by simp)
      have ih := base64urlDecode_base64urlEncode rest (fun b hb => h b (by simp [hb]))
      simp only [base64urlEncode, base64urlDecode]
      rw [b64Idx_b64Char (b1 / 4) (by omega),
        b64Idx_b64Char (b1 % 4 * 16 + b2 / 16) (by omega),
        b64Idx_b64Char (b2 % 16 * 4 + b3 / 64) (by omega),
        b64Idx_b64Char (b3 % 64) (by omega)]
      simp only [List.cons.injEq, ih, and_true]
      omega

/-! ## SHA-256 (model of Node `crypto.createHash('sha256')`) -/

def two32 : Nat := 4294967296

/-- The 32-bit right rotation of `x < 2^32`. -/
def rotr32 (x n : Nat) : Nat := x / 2 ^ n + x % 2 ^ n * 2 ^ (32 - n)

def smallSigma0 (x : Nat) : Nat := rotr32 x 7 ^^^ rotr32 x 18 ^^^ x / 8
def smallSigma1 (x : Nat) : Nat := rotr32 x 17 ^^^ rotr32 x 19 ^^^ x / 1024
def bigSigma0 (x : Nat) : Nat := rotr32 x 2 ^^^ rotr32 x 13 ^^^ rotr32 x 22
def bigSigma1 (x : Nat) : Nat := rotr32 x 6 ^^^ rotr32 x 11 ^^^ rotr32 x 25

/-- Round constants: first 32 bits of the fractional parts of the cube roots
of the first 64 primes. -/
def sha256K : List Nat :=
  [1116352408, 1899447441, 3049323471, 3921009573,
    961987163, 1508970993, 2453635748, 2870763221,
    3624381080, 310598401, 607225278, 1426881987,
    1925078388, 2162078206, 2614888103, 3248222580,
    3835390401, 4022224774, 264347078, 604807628,
    770255983, 1249150122, 1555081692, 1996064986,
    2554220882, 2821834349, 2952996808, 3210313671,
    3336571891, 3584528711, 113926993, 338241895,
    666307205, 773529912, 1294757372, 1396182291,
    1695183700, 1986661051, 2177026350, 2456956037,
    2730485921, 2820302411, 3259730800, 3345764771,
    3516065817, 3600352804, 4094571909, 275423344,
    430227734, 506948616, 659060556, 883997877,
    958139571, 1322822218, 1537002063, 1747873779,
    1955562222, 2024104815, 2227730452, 2361852424,
    2428436474, 2756734187, 3204031479, 3329325298]

/-- Big-endian bytes of `n`, `k` of them. -/
def beBytes (k n : Nat) : List Nat :=
  (List.range k).map (fun i => n / 2 ^ (8 * (k - 1 - i)) % 256)

/-- Merkle–Damgård padding: `0x80`, zeros to 56 mod 64, 8-byte bit length. -/
def sha256Pad (msg : List Nat) : List Nat :=
  let zeros := (120 - (msg.length + 1) % 64) % 64
  msg ++ [128] ++ List.replicate zeros 0 ++ beBytes 8 (8 * msg.length)

/-- Big-endian 32-bit words of a byte list. -/
def bytesToWords : List Nat → List Nat
  | b1 :: b2 :: b3 :: b4 :: rest =>
      (b1 * 16777216 + b2 * 65536 + b3 * 256 + b4) :: bytesToWords rest
  | _ => []

/-- Split into 64-byte chunks (fuel-based so that it reduces definitionally). -/
def chunks64Fuel : Nat → List Nat → List (List Nat)
  | 0, _ => []
  | _ + 1, [] => []
  | fuel + 1, l => l.take 64 :: chunks64Fuel fuel (l.drop 64)

def chunks64 (l : List Nat) : List (List Nat) := chunks64Fuel (l.length + 1) l

structure Sha256State where
  a : Nat
  b : Nat
  c : Nat
  d : Nat
  e : Nat
  f : Nat
  g : Nat
  h : Nat
deriving DecidableEq

def sha256Init : Sha256State :=
  ⟨1779033703, 3144134277, 1013904242, 2773480762,
    1359893119, 2600822924, 528734635, 1541459225⟩

/-- Extend 16 words to the 64-word message schedule. -/
def sha256Extend (ws : Array Nat) : Array Nat :=
  (List.range 48).foldl (fun arr i =>
    let j := i + 16
    let s0 := smallSigma0 (arr.getD (j - 15) 0)
    let s1 := smallSigma1 (arr.getD (j - 2) 0)
    arr.push ((arr.getD (j - 16) 0 + s0 + arr.getD (j - 7) 0 + s1) % two32)) ws

/-- One compression of a 64-byte chunk. -/
def sha256Compress (st0 : Sha256State) (chunk : List Nat) : Sha256State :=
  let ws := sha256Extend (bytesToWords chunk).toArray
  let stf := (List.range 64).foldl (fun s i =>
    let ch := (s.e &&& s.f) ^^^ ((s.e ^^^ 4294967295) &&& s.g)
    let maj := (s.a &&& s.b) ^^^ (s.a &&& s.c) ^^^ (s.b &&& s.c)
    let t1 := (s.h + bigSigma1 s.e + ch + sha256K.getD i 0 + ws.getD i 0) % two32
    let t2 := (bigSigma0 s.a + maj) % two32
    { a := (t1 + t2) % two32, b := s.a, c := s.b, d := s.c,
      e := (s.d + t1) % two32, f := s.e, g := s.f, h := s.g }) st0
  { a := (st0.a + stf.a) % two32, b := (st0.b + stf.b) % two32,
    c := (st0.c + stf.c) % two32, d := (st0.d + stf.d) % two32,
    e := (st0.e + stf.e) % two32, f := (st0.f + stf.f) % two32,
    g := (st0.g + stf.g) % two32, h := (st0.h + stf.h) % two32 }

def sha256Digest (s : Sha256State) : List Nat :=
  beBytes 4 s.a ++ beBytes 4 s.b ++ beBytes 4 s.c ++ beBytes 4 s.d ++
    beBytes 4 s.e ++ beBytes 4 s.f ++ beBytes 4 s.g ++ beBytes 4 s.h

/-- SHA-256 of a byte list. -/
def sha256 (msg : List Nat) : List Nat :=
  sha256Digest ((chunks64 (sha256Pad msg)).foldl sha256Compress sha256Init)

theorem beBytes_length (k n : Nat) : (beBytes k n).length = k := by
  simp [beBytes]

theorem sha256_length (msg : List Nat) : (sha256 msg).length = 32 := by
  simp [sha256, sha256Digest, beBytes_length]

theorem sha256_bytes_lt (msg : List Nat) : ∀ b ∈ sha256 msg, b < 256 := by
  intro b hb
  simp only [sha256, sha256Digest, beBytes, List.mem_append, List.mem_map,
    List.mem_range] at hb
  rcases hb with ((((((⟨i, _, hc⟩ | ⟨i, _, hc⟩) | ⟨i, _, hc⟩) | ⟨i, _, hc⟩) |
      ⟨i, _, hc⟩) | ⟨i, _, hc⟩) | ⟨i, _, hc⟩) | ⟨i, _, hc⟩ <;>
    exact hc ▸ Nat.mod_lt _ (by norm_num)

/-! ## PKCE and random strings (`OAuthManager.js` lines 21-48)

`crypto.randomBytes(n)` is modelled by the byte-list argument; the hash input
is the verifier's UTF-8 byte sequence as `Hash.update` encodes strings. -/

def utf8Bytes (s : String) : List Nat := s.toUTF8.toList.map (fun b => b.toNat)

/-- Source `generateRandomString`: base64url of the provided random bytes. -/
def generateRandomString (randomBytes : List Nat) : String :=
  String.mk (base64urlEncode randomBytes)

/-- Source `generateCodeVerifier`: 32 random bytes, base64url. -/
def generateCodeVerifier (randomBytes : List Nat) : String :=
  generateRandomString randomBytes

/-- Source `generateCodeChallenge`: base64url of the SHA-256 digest of the verifier. -/
def generateCodeChallenge (codeVerifier : String) : String :=
  String.mk (base64urlEncode (sha256 (utf8Bytes codeVerifier)))

/-- Source `generateState`: 16 random bytes, base64url. -/
def generateState (randomBytes : List Nat) : String :=
  generateRandomString randomBytes

/-! ## OAuth data model (`OAuthManager.js` constructor and stored records) -/

/-- A token response JSON body (`access_token`, `refresh_token`, `expires_in`).
Absent JSON keys are `Option.none`; `expires_in` is the server-declared
lifetime in seconds. -/
structure TokenResponse where
  access_token : Option String
  refresh_token : Option String
  expires_in : Option Nat
deriving DecidableEq

/-- The token record stored in `this.tokens` (spread of the token response
plus bookkeeping fields added by `storeTokens` call sites). -/
structure TokenRecord where
  access_token : Option String
  refresh_token : Option String
  serverUrl : String
  clientId : Option String
  clientSecret : Option String
  grantType : Option String
  obtainedAt : Int
  expiresAt : Option Int
deriving DecidableEq

/-- A pending authorization stored in `this.pendingAuthorizations`. -/
structure PendingAuthorization where
  serverName : String
  serverUrl : String
  codeVerifier : String
  clientId : String
  clientSecret : Option String
  scopes : List String
  redirectUri : String
  createdAt : Int
  expiresAt : Int
deriving DecidableEq

/-- Discovered authorization-server metadata. A successful discovery fetch
returns whatever JSON the remote produced, so every endpoint field is
optional; synthesized fallbacks populate them. The `*_supported` lists are
not consulted by any modelled operation and are omitted. -/
structure Metadata where
  issuer : Option String
  authorization_endpoint : Option String
  token_endpoint : Option String
  registration_endpoint : Option String
deriving DecidableEq

/-- A dynamic client registration response. -/
structure Registration where
  client_id : Option String
deriving DecidableEq

/-- The `OAuthManager` instance state: its four `Map`s. -/
structure OAuthState where
  pendingAuthorizations : List (String × PendingAuthorization)
  tokens : List (String × TokenRecord)
  serverMetadata : List (String × Metadata)
  clientRegistrations : List (String × Registration)
deriving DecidableEq

/-- Model of `expiresAt: tokens.expires_in ? Date.now() + expires_in*1000 : null`
(note `expires_in === 0` is falsy and also yields `null`). -/
def mkExpiry (now : Int) : Option Nat → Option Int
  | some n => if n = 0 then Option.none else some (now + n * 1000)
  | Option.none => Option.none

/-- Source `storeTokens` (`OAuthManager.js` lines 549-551). -/
def storeTokens (st : OAuthState) (serverName : String) (tokenData : TokenRecord) : OAuthState :=
  { st with tokens := alSet st.tokens serverName tokenData }

/-! ## Metadata discovery (`OAuthManager.js` lines 55-202)

A parsed server URL is a `UrlParts` (the `new URL(serverUrl)` components the
code reads). Each discovery fetch is an oracle `String → FetchResult`; `bad`
covers a network error, a non-2xx status and a non-JSON body alike, exactly
the outcomes that make the code move to the next candidate. The final probe's
`WWW-Authenticate` header is modelled by its extracted `key="value"` pairs
(`Option.none`: no header or the probe failed). -/

structure UrlParts where
  raw : String
  protocol : String
  host : String
  pathname : String
deriving DecidableEq

def baseUrlOf (u : UrlParts) : String := u.protocol ++ "//" ++ u.host

inductive FetchResult
  | okJson (m : Metadata)
  | bad
deriving DecidableEq

/-- Model of the path split on slashes, as `pathname.split` produces it. -/
def splitSlashAux : List Char → List Char → List String
  | [], acc => [String.mk acc.reverse]
  | c :: rest, acc =>
      if c = '/' then String.mk acc.reverse :: splitSlashAux rest []
      else splitSlashAux rest (c :: acc)

def pathParts (p : String) : List String := splitSlashAux p.data []

/-- Model of `array.join` with a separator. -/
def joinWith (sep : String) : List String → String
  | [] => ""
  | [x] => x
  | x :: rest => x ++ sep ++ joinWith sep rest

/-- The ordered discovery candidates (`OAuthManager.js` lines 65-85). -/
def discoveryUrls (u : UrlParts) (customMetadataUrl : Option String) : List String :=
  let base := baseUrlOf u
  let custom := match customMetadataUrl with
    | some c => [c]
    | Option.none => []
  let wellKnown :=
    if u.pathname ≠ "" ∧ u.pathname ≠ "/" then
      let pathPref := joinWith "/" (pathParts u.pathname).dropLast
      [base ++ "/.well-known/oauth-authorization-server"] ++
        (if pathPref ≠ "" then [base ++ pathPref ++ "/.well-known/oauth-authorization-server"]
         else [])
    else
      [base ++ "/.well-known/oauth-authorization-server"]
  custom ++ wellKnown ++ [base ++ "/.well-known/openid-configuration"]

/-- First candidate whose fetch returns ok with a JSON body. -/
def firstOkJson (fr : String → FetchResult) : List String → Option Metadata
  | [] => Option.none
  | u :: rest =>
      match fr u with
      | .okJson m => some m
      | .bad => firstOkJson fr rest

/-- Source `parseWWWAuthenticateHeader` (`OAuthManager.js` lines 176-202), applied to
the extracted `key="value"` parameters. -/
def parseWWWAuthenticateHeader (params : List (String × String)) (base : String) :
    Option Metadata :=
  if jsTruthy (alGet params "authorization_uri") ∨ jsTruthy (alGet params "realm") then
    some { issuer := some (jsOrStr (alGet params "realm") base)
           authorization_endpoint :=
             some (jsOrStr (alGet params "authorization_uri") (base ++ "/authorize"))
           token_endpoint := some (jsOrStr (alGet params "token_uri") (base ++ "/token"))
           registration_endpoint := alGet params "registration_uri" }
  else Option.none

/-- The synthesized default endpoints (`OAuthManager.js` lines 140-149). -/
def defaultMetadata (base : String) : Metadata :=
  { issuer := some base
    authorization_endpoint := some (base ++ "/authorize")
    token_endpoint := some (base ++ "/token")
    registration_endpoint := some (base ++ "/register") }

/-- Source `discoverServerMetadata` (`OAuthManager.js` lines 55-171) on a parseable
server URL: try each candidate, then the `WWW-Authenticate` probe, then the
defaults; cache whatever is returned under the server URL. -/
def discoverServerMetadata (st : OAuthState) (u : UrlParts) (customMetadataUrl : Option String)
    (fr : String → FetchResult) (probeParams : Option (List (String × String))) :
    OAuthState × Metadata :=
  let base := baseUrlOf u
  match firstOkJson fr (discoveryUrls u customMetadataUrl) with
  | some m => ({ st with serverMetadata := alSet st.serverMetadata u.raw m }, m)
  | Option.none =>
      match probeParams with
      | some params =>
          match parseWWWAuthenticateHeader params base with
          | some m => ({ st with serverMetadata := alSet st.serverMetadata u.raw m }, m)
          | Option.none =>
              let dm := defaultMetadata base
              ({ st with serverMetadata := alSet st.serverMetadata u.raw dm }, dm)
      | Option.none =>
          let dm := defaultMetadata base
          ({ st with serverMetadata := alSet st.serverMetadata u.raw dm }, dm)

/-! ## Callback URL (`OAuthManager.js` lines 260-285) -/

/-- The environment variables `getCallbackUrl` reads. -/
structure Env where
  app_url : Option String
  heroku_app_url : Option String
  heroku_app_name : Option String
  port : Option String
deriving DecidableEq

/-- Model of `process.env.PORT || 3000`. -/
def portString (env : Env) : String :=
  if jsTruthy env.port then env.port.getD "" else "3000"

/-- Model of the `baseUrl.replace` call with the slash-anchor regex: drop one
trailing slash. -/
def stripTrailingSlash (s : String) : String :=
  match s.data.getLast? with
  | some '/' => String.mk s.data.dropLast
  | _ => s

/-- Source `getCallbackUrl` (`OAuthManager.js` lines 260-285). A truthy caller-supplied
URL is returned as-is; otherwise the first truthy of `APP_URL`,
`HEROKU_APP_URL`, the templated `HEROKU_APP_NAME`, `http://localhost:{port}`
is the base, which gets its trailing slash stripped and `/oauth/callback`
appended. -/
def getCallbackUrl (customCallbackUrl : Option String) (env : Env) : String :=
  if jsTruthy customCallbackUrl then customCallbackUrl.getD ""
  else
    let b1 := env.app_url
    let b2 := if ¬ jsTruthy b1 ∧ jsTruthy env.heroku_app_url then env.heroku_app_url else b1
    let b3 :=
      if ¬ jsTruthy b2 ∧ jsTruthy env.heroku_app_name then
        some ("https://" ++ env.heroku_app_name.getD "" ++ ".herokuapp.com")
      else b2
    let b4 := if ¬ jsTruthy b3 then some ("http://localhost:" ++ portString env) else b3
    stripTrailingSlash (b4.getD "") ++ "/oauth/callback"

/-! ## Token access, refresh, revocation (`OAuthManager.js` lines 494-648) -/

/-- Source `hasValidTokens` (`OAuthManager.js` lines 585-594). -/
def hasValidTokens (st : OAuthState) (serverName : String) (now : Int) : Bool :=
  match alGet st.tokens serverName with
  | Option.none => false
  | some tokenData =>
      match tokenData.expiresAt with
      | some e => if now > e then tokenData.refresh_token.isSome else true
      | Option.none => true

/-- Source `revokeTokens` (`OAuthManager.js` lines 622-648): the remote revocation is
best-effort and leaves the local state unchanged whether or not it runs or
fails; the local record is deleted unconditionally. -/
def revokeTokens (st : OAuthState) (serverName : String) : OAuthState :=
  { st with tokens := alDel st.tokens serverName }

/-- Outcome of the refresh-token POST (`OAuthManager.js` lines 513-529):
a 2xx JSON response, a non-2xx response, or a thrown fetch error. -/
inductive RefreshOutcome
  | success (tr : TokenResponse)
  | httpError
  | netError
deriving DecidableEq

/-- Source `refreshAccessToken` (`OAuthManager.js` lines 494-544). The metadata
discovery it performs only feeds the token-endpoint URL of the POST, which is
subsumed by the outcome oracle, so its cache write is omitted here. On a
non-2xx response the stored record is deleted before the error is thrown; on
success the new token fields are spread over the old record and the expiry is
recomputed. -/
def refreshAccessToken (st : OAuthState) (serverName : String) (now : Int)
    (o : RefreshOutcome) : OAuthState × Except String TokenResponse :=
  match alGet st.tokens serverName with
  | Option.none => (st, .error ("No refresh token available for " ++ serverName))
  | some tokenData =>
      match tokenData.refresh_token with
      | Option.none => (st, .error ("No refresh token available for " ++ serverName))
      | some _ =>
          match o with
          | .netError => (st, .error "fetch failed")
          | .httpError =>
              ({ st with tokens := alDel st.tokens serverName }, .error "Token refresh failed")
          | .success tr =>
              let merged : TokenRecord :=
                { access_token := tr.access_token.orElse (fun _ => tokenData.access_token)
                  refresh_token := tr.refresh_token.orElse (fun _ => tokenData.refresh_token)
                  serverUrl := tokenData.serverUrl
                  clientId := tokenData.clientId
                  clientSecret := tokenData.clientSecret
                  grantType := tokenData.grantType
                  obtainedAt := now
                  expiresAt := mkExpiry now tr.expires_in }
              (storeTokens st serverName merged, .ok tr)

/-- Source `getAccessToken` (`OAuthManager.js` lines 556-580). -/
def getAccessToken (st : OAuthState) (serverName : String) (now : Int)
    (o : RefreshOutcome) : OAuthState × Option String :=
  match alGet st.tokens serverName with
  | Option.none => (st, Option.none)
  | some tokenData =>
      match tokenData.expiresAt with
      | some e =>
          if now > e - 300000 then
            if tokenData.refresh_token.isSome then
              match refreshAccessToken st serverName now o with
              | (st', .ok _) =>
                  (st', (alGet st'.tokens serverName).bind (fun r => r.access_token))
              | (st', .error _) => (st', Option.none)
            else
              ({ st with tokens := alDel st.tokens serverName }, Option.none)
          else (st, tokenData.access_token)
      | Option.none => (st, tokenData.access_token)

/-! ## Authorization-code flow (`OAuthManager.js` lines 301-439) -/

/-- Outcome of the code-exchange try-block in `handleCallback`: `success` is a
2xx token response; `failure` is anything thrown inside the block (the
non-2xx token exchange, a network error, or a discovery throw). -/
inductive ExchangeOutcome
  | success (tr : TokenResponse)
  | failure (msg : String)
deriving DecidableEq

inductive CallbackError
  | invalidState
  | expired
  | exchangeFailed (msg : String)
deriving DecidableEq

/-- Source `handleCallback` (`OAuthManager.js` lines 367-439). -/
def handleCallback (st : OAuthState) (state : String) (now : Int)
    (o : ExchangeOutcome) : OAuthState × Except CallbackError String :=
  match alGet st.pendingAuthorizations state with
  | Option.none => (st, .error .invalidState)
  | some pending =>
      if now > pending.expiresAt then
        ({ st with pendingAuthorizations := alDel st.pendingAuthorizations state },
          .error .expired)
      else
        match o with
        | .failure msg =>
            ({ st with pendingAuthorizations := alDel st.pendingAuthorizations state },
              .error (.exchangeFailed msg))
        | .success tr =>
            let record : TokenRecord :=
              { access_token := tr.access_token
                refresh_token := tr.refresh_token
                serverUrl := pending.serverUrl
                clientId := some pending.clientId
                clientSecret := pending.clientSecret
                grantType := Option.none
                obtainedAt := now
                expiresAt := mkExpiry now tr.expires_in }
            let st1 := storeTokens st pending.serverName record
            ({ st1 with pendingAuthorizations := alDel st1.pendingAuthorizations state },
              .ok pending.serverName)

/-- Source `clientCredentialsGrant` (`OAuthManager.js` lines 444-489); the discovery
feeding the token endpoint is subsumed by the outcome oracle. -/
def clientCredentialsGrant (st : OAuthState) (serverName serverUrl clientId clientSecret : String)
    (now : Int) (o : Except String TokenResponse) : OAuthState × Except String TokenResponse :=
  match o with
  | .error e => (st, .error e)
  | .ok tr =>
      let record : TokenRecord :=
        { access_token := tr.access_token
          refresh_token := tr.refresh_token
          serverUrl := serverUrl
          clientId := some clientId
          clientSecret := some clientSecret
          grantType := some "client_credentials"
          obtainedAt := now
          expiresAt := mkExpiry now tr.expires_in }
      (storeTokens st serverName record, .ok tr)

/-- The options record accepted by `initiateAuthorizationFlow`. -/
structure AuthOptions where
  clientId : Option String
  clientSecret : Option String
  scopes : List String
  metadataUrl : Option String
  callbackUrl : Option String
deriving DecidableEq

structure InitiateResult where
  authorizationUrl : String
  state : String
  expiresIn : Nat
deriving DecidableEq

/-- The `crypto.randomBytes` draws consumed by one initiation. -/
structure RandomInputs where
  verifierBytes : List Nat
  stateBytes : List Nat
deriving DecidableEq

/-- The authorization URL with its query parameters
(`OAuthManager.js` lines 339-349); the query-string serialization is modelled
as plain concatenation since no claim inspects the encoded text. -/
def buildAuthorizationUrl (endpoint clientId redirectUri state challenge : String)
    (scopes : List String) : String :=
  endpoint ++ "?response_type=code&client_id=" ++ clientId ++
    "&redirect_uri=" ++ redirectUri ++ "&state=" ++ state ++
    "&code_challenge=" ++ challenge ++ "&code_challenge_method=S256" ++
    (if scopes.length > 0 then "&scope=" ++ joinWith " " scopes else "")

/-- Source `initiateAuthorizationFlow` (`OAuthManager.js` lines 301-362).
`registerResult` is the outcome of `registerClient` (which never throws and
returns `null` on any failure); a successful registration is cached under the
server URL as `registerClient` does. Note the pending authorization is stored
before the authorization URL is built, so a metadata record without an
`authorization_endpoint` throws only after the store. -/
def initiateAuthorizationFlow (st : OAuthState) (serverName : String) (u : UrlParts)
    (opts : AuthOptions) (env : Env) (rand : RandomInputs) (now : Int)
    (fr : String → FetchResult) (probeParams : Option (List (String × String)))
    (registerResult : Option Registration) : OAuthState × Except String InitiateResult :=
  let d := discoverServerMetadata st u opts.metadataUrl fr probeParams
  let st1 := d.1
  let metadata := d.2
  let reg : Option Registration :=
    if jsTruthy opts.clientId then Option.none
    else (alGet st1.clientRegistrations u.raw).orElse (fun _ => registerResult)
  let st2 :=
    match alGet st1.clientRegistrations u.raw, registerResult with
    | Option.none, some r =>
        if jsTruthy opts.clientId then st1
        else { st1 with clientRegistrations := alSet st1.clientRegistrations u.raw r }
    | _, _ => st1
  let clientId : Option String :=
    if jsTruthy opts.clientId then opts.clientId else reg.bind (fun r => r.client_id)
  if jsTruthy clientId then
    let codeVerifier := generateCodeVerifier rand.verifierBytes
    let codeChallenge := generateCodeChallenge codeVerifier
    let state := generateState rand.stateBytes
    let redirectUri := getCallbackUrl opts.callbackUrl env
    let pending : PendingAuthorization :=
      { serverName := serverName
        serverUrl := u.raw
        codeVerifier := codeVerifier
        clientId := clientId.getD ""
        clientSecret := opts.clientSecret
        scopes := opts.scopes
        redirectUri := redirectUri
        createdAt := now
        expiresAt := now + 600000 }
    let st3 := { st2 with
      pendingAuthorizations := alSet st2.pendingAuthorizations state pending }
    match metadata.authorization_endpoint with
    | Option.none => (st3, .error "Invalid authorization endpoint URL")
    | some ep =>
        (st3, .ok { authorizationUrl :=
                      buildAuthorizationUrl ep (clientId.getD "") redirectUri state
                        codeChallenge opts.scopes
                    state := state
                    expiresIn := 600 })
  else
    (st2, .error "No client ID available. Provide clientId or enable dynamic registration.")

/-! ## Enhanced MCP client (`MCPClientEnhanced.js`) -/

/-- Source `AuthType` (`MCPClientEnhanced.js` lines 23-29): `noauth` is the source's
`'none'`, `oauth2cc` the source's `'oauth2-client-credentials'`. -/
inductive AuthType
  | noauth
  | apiKey
  | bearerToken
  | oauth2
  | oauth2cc
deriving DecidableEq

/-- The slice of a normalized client config the modelled paths read. -/
structure ClientConfig where
  name : String
  url : UrlParts
  authType : AuthType
  apiKey : Option String
  bearerToken : Option String
  oauth : AuthOptions
deriving DecidableEq

/-- Outcome of the transport connection attempt (`this.client.connect`):
success, a 401-indicating error (`error.message` contains `'401'` or
`error.code === 401`), or some other error. -/
inductive AttemptOutcome
  | ok
  | err401
  | errOther (msg : String)
deriving DecidableEq

/-- The error kinds `connect` can surface: the distinguished
`OAuthAuthorizationRequired` error with its ad hoc fields (`expiresIn` is
`Option` because not every construction site sets it), or any other error. -/
inductive ConnectError
  | authRequired (authorizationUrl : String) (state : String) (expiresIn : Option Nat)
  | other (msg : String)
deriving DecidableEq

/-- The oracles one `connect` run consumes. `rand401` is the fresh random
draw for the initiation inside the 401 handler. -/
structure ConnectOracles where
  ccOutcome : Except String TokenResponse
  probeRequiresAuth : Bool
  fr : String → FetchResult
  probeParams : Option (List (String × String))
  registerResult : Option Registration
  rand : RandomInputs
  rand401 : RandomInputs
  refreshOutcome : RefreshOutcome
  attempt : AttemptOutcome
  env : Env

/-- Source `buildAuthHeaders` (`MCPClientEnhanced.js` lines 72-108). -/
def buildAuthHeaders (cfg : ClientConfig) (st : OAuthState) (now : Int)
    (ro : RefreshOutcome) : OAuthState × Except String (List (String × String)) :=
  let base := [("MCP-Protocol-Version", "2025-03-26")]
  match cfg.authType with
  | .apiKey =>
      (st, .ok (base ++ (match cfg.apiKey with
        | some k => [("X-API-Key", k)]
        | Option.none => [])))
  | .bearerToken =>
      (st, .ok (base ++ (match cfg.bearerToken with
        | some t => [("Authorization", "Bearer " ++ t)]
        | Option.none => [])))
  | .oauth2 | .oauth2cc =>
      match getAccessToken st cfg.name now ro with
      | (st', some tok) =>
          if tok = "" then
            (st', .error ("No valid OAuth token available for " ++ cfg.name ++
              ". Authorization required."))
          else (st', .ok (base ++ [("Authorization", "Bearer " ++ tok)]))
      | (st', Option.none) =>
          (st', .error ("No valid OAuth token available for " ++ cfg.name ++
            ". Authorization required."))
  | .noauth => (st, .ok base)

/-- The transport attempt and the catch-block 401 handling
(`MCPClientEnhanced.js` lines 263-297): on a 401-indicating error with an
OAuth strategy the tokens are revoked and, for `oauth2`, a fresh flow is
initiated; the re-authorization error carries no `expiresIn`. -/
def connectAttempt (cfg' : ClientConfig) (st3 : OAuthState) (now : Int) (o : ConnectOracles) :
    ClientConfig × OAuthState × Except ConnectError Unit :=
  match o.attempt with
  | .ok => (cfg', st3, .ok ())
  | .errOther msg => (cfg', st3, .error (.other msg))
  | .err401 =>
      if cfg'.authType = AuthType.oauth2 ∨ cfg'.authType = AuthType.oauth2cc then
        if cfg'.authType = AuthType.oauth2 then
          match initiateAuthorizationFlow (revokeTokens st3 cfg'.name) cfg'.name cfg'.url
              cfg'.oauth o.env o.rand401 now o.fr o.probeParams o.registerResult with
          | (st5, .ok r) =>
              (cfg', st5, .error (.authRequired r.authorizationUrl r.state Option.none))
          | (st5, .error e) => (cfg', st5, .error (.other e))
        else (cfg', revokeTokens st3 cfg'.name, .error (.other "401 Unauthorized"))
      else (cfg', st3, .error (.other "401 Unauthorized"))

/-- Header construction followed by the attempt
(`MCPClientEnhanced.js` lines 241-263). -/
def connectHeadersAndAttempt (cfg' : ClientConfig) (st2 : OAuthState) (now : Int)
    (o : ConnectOracles) : ClientConfig × OAuthState × Except ConnectError Unit :=
  match buildAuthHeaders cfg' st2 now o.refreshOutcome with
  | (st3, .error e) => (cfg', st3, .error (.other e))
  | (st3, .ok _) => connectAttempt cfg' st3 now o

/-- The no-auth probe (`MCPClientEnhanced.js` lines 224-239): on a challenge
the config is upgraded to `oauth2` and a flow is initiated. -/
def connectProbe (cfg : ClientConfig) (st1 : OAuthState) (now : Int) (o : ConnectOracles) :
    ClientConfig × OAuthState × Except ConnectError Unit :=
  if cfg.authType = AuthType.noauth ∧ o.probeRequiresAuth then
    match initiateAuthorizationFlow st1 cfg.name cfg.url cfg.oauth o.env o.rand now
        o.fr o.probeParams o.registerResult with
    | (st2, .ok r) =>
        ({ cfg with authType := AuthType.oauth2 }, st2,
          .error (.authRequired r.authorizationUrl r.state (some r.expiresIn)))
    | (st2, .error e) =>
        ({ cfg with authType := AuthType.oauth2 }, st2, .error (.other e))
  else connectHeadersAndAttempt cfg st1 now o

/-- The requires-authorization check (`MCPClientEnhanced.js` lines 213-222):
with `oauth2` and no valid tokens, a flow is initiated and the
`OAuthAuthorizationRequired` error (with `expiresIn`) is thrown. -/
def connectAuthCheck (cfg : ClientConfig) (st1 : OAuthState) (now : Int) (o : ConnectOracles) :
    ClientConfig × OAuthState × Except ConnectError Unit :=
  if cfg.authType = AuthType.oauth2 ∧ ¬ hasValidTokens st1 cfg.name now then
    match initiateAuthorizationFlow st1 cfg.name cfg.url cfg.oauth o.env o.rand now
        o.fr o.probeParams o.registerResult with
    | (st2, .ok r) =>
        (cfg, st2, .error (.authRequired r.authorizationUrl r.state (some r.expiresIn)))
    | (st2, .error e) => (cfg, st2, .error (.other e))
  else connectProbe cfg st1 now o

/-- Source `connect` (`MCPClientEnhanced.js` lines 198-298), staged as the source's
sequential paragraphs.  The catch-block 401 test fires exactly for the
transport attempt's `err401` outcome; every error raised earlier in the try
block (including the thrown `OAuthAuthorizationRequired`) has a message
without `'401'` and is re-thrown unchanged.  Returns the possibly upgraded
config (the probe path mutates `this.config.authType`), the OAuth manager
state, and the result. -/
def connect (cfg : ClientConfig) (st : OAuthState) (now : Int) (o : ConnectOracles) :
    ClientConfig × OAuthState × Except ConnectError Unit :=
  if cfg.authType = AuthType.oauth2cc ∧ ¬ hasValidTokens st cfg.name now then
    if ¬ (jsTruthy cfg.oauth.clientId ∧ jsTruthy cfg.oauth.clientSecret) then
      (cfg, st, .error (.other "Client ID and secret are required for client credentials grant"))
    else
      match clientCredentialsGrant st cfg.name cfg.url.raw (cfg.oauth.clientId.getD "")
          (cfg.oauth.clientSecret.getD "") now o.ccOutcome with
      | (st1, .ok _) => connectAuthCheck cfg st1 now o
      | (st1, .error e) => (cfg, st1, .error (.other e))
  else connectAuthCheck cfg st now o

/-! ## Enhanced connection manager (`MCPConnectionManagerEnhanced`) -/

/-- A `MCPClientEnhanced` instance as the manager sees it: an identity, the
`isConnected()` answer, and whether `disconnect()`/`close()` has been invoked
on it. -/
structure Conn where
  connId : Nat
  connected : Bool
  closedCalled : Bool
deriving DecidableEq

/-- The manager's own state: `connections` and registered `configs` (modelled
by the registered names; the config contents do not matter to the claims). -/
structure MgrState where
  connections : List (String × Conn)
  configs : List String
deriving DecidableEq

/-- Source `getConnection` (`MCPConnectionManagerEnhanced.getConnection`): reuse a
connected client; drop a stale one from the map (without calling its
`disconnect`); otherwise create `fresh` and connect it (`connectOk` is the
outcome of `client.connect()`). Returns the new state, the clients removed
from the map during the call (with their `closedCalled` status at removal),
and the result. -/
def MgrState.getConnection (mgr : MgrState) (serverName : String) (fresh : Conn)
    (connectOk : Bool) : MgrState × List Conn × Except String Conn :=
  match alGet mgr.connections serverName with
  | some client =>
      if client.connected then (mgr, [], .ok client)
      else
        let mgr1 : MgrState := { mgr with connections := alDel mgr.connections serverName }
        if serverName ∈ mgr1.configs then
          if connectOk then
            ({ mgr1 with connections := alSet mgr1.connections serverName fresh },
              [client], .ok fresh)
          else (mgr1, [client], .error "connect failed")
        else (mgr1, [client], .error ("MCP server '" ++ serverName ++ "' is not registered"))
  | Option.none =>
      if serverName ∈ mgr.configs then
        if connectOk then
          ({ mgr with connections := alSet mgr.connections serverName fresh }, [], .ok fresh)
        else (mgr, [], .error "connect failed")
      else (mgr, [], .error ("MCP server '" ++ serverName ++ "' is not registered"))

/-- Source `disconnect` (`MCPConnectionManagerEnhanced.disconnect`): if a client is
held, call its `disconnect()` (which closes it) and remove it from the map. -/
def MgrState.disconnect (mgr : MgrState) (serverName : String) : MgrState × List Conn :=
  match alGet mgr.connections serverName with
  | some client =>
      ({ mgr with connections := alDel mgr.connections serverName },
        [{ client with connected := false, closedCalled := true }])
  | Option.none => (mgr, [])

/-! ## Shared concrete fixtures and helper lemmas for the claim theorems -/

def emptyOAuthState : OAuthState := ⟨[], [], [], []⟩

def emptyEnv : Env := ⟨Option.none, Option.none, Option.none, Option.none⟩

/-- An expiry computed by `mkExpiry now` is never in the past at `now`. -/
theorem mkExpiry_le (now : Int) (ei : Option Nat) (e : Int)
    (h : mkExpiry now ei = some e) : now ≤ e := by
  cases ei with
  | none => simp [mkExpiry] at h
  | some n =>
      by_cases h0 : n = 0
      · simp [mkExpiry, h0] at h
      · simp only [mkExpiry, if_neg h0, Option.some.injEq] at h
        omega

/-- A record freshly stored with `expiresAt` computed by `mkExpiry now` is
valid at `now`: the expiry is either `null` or strictly in the future. -/
theorem hasValidTokens_store_mkExpiry (st : OAuthState) (name : String) (now : Int)
    (r : TokenRecord) (ei : Option Nat) (h : r.expiresAt = mkExpiry now ei) :
    hasValidTokens (storeTokens st name r) name now = true := by
  unfold hasValidTokens storeTokens
  rw [alGet_alSet_self]
  cases ei with
  | none => simp [mkExpiry] at h; simp [h]
  | some nsec =>
      by_cases h0 : nsec = 0
      · simp [mkExpiry, h0] at h; simp [h]
      · simp only [mkExpiry, h0, if_neg] at h
        have hle : ¬ now > now + (nsec : Int) * 1000 := by
          have h1 : 1 ≤ nsec := Nat.one_le_iff_ne_zero.mpr h0
          have : (1 : Int) ≤ (nsec : Int) := by exact_mod_cast h1
          nlinarith
        simp [h, hle]

/-! ## Claim C1 (corrected) -/

def c1Record : TokenRecord :=
  { access_token := some "tok", refresh_token := some "rt"
    serverUrl := "https://s.example", clientId := some "cid"
    clientSecret := Option.none, grantType := Option.none
    obtainedAt := 0, expiresAt := some 1000000 }

def c1State : OAuthState := ⟨[], [("srv", c1Record)], [], []⟩

/-- Claim C1, counterexample: a token record inside the 5-minute buffer with a
refresh token, where the refresh POST gets a non-2xx response: `getAccessToken`
returns null as claimed but the stored record has been deleted, not left
untouched (`refreshAccessToken` clears the record before throwing). -/
theorem C1_counterexample :
    (getAccessToken c1State "srv" 900000 RefreshOutcome.httpError).2 = Option.none ∧
    alGet (getAccessToken c1State "srv" 900000 RefreshOutcome.httpError).1.tokens "srv"
      = Option.none ∧
    alGet c1State.tokens "srv" = some c1Record := ⟨rfl, rfl, rfl⟩

/-- Claim C1 as amended: when `getAccessToken` finds a record within 5 minutes
of (or past) its finite expiry with a refresh token present, it attempts a
refresh, and a failed refresh makes it return null; the stored record is
deleted when the token endpoint answers non-2xx, and is left untouched only
when the refresh request itself fails (network error). -/
theorem C1_refresh_failure_amended (st : OAuthState) (name : String) (t : TokenRecord)
    (e now : Int) (hget : alGet st.tokens name = some t) (hexp : t.expiresAt = some e)
    (hbuf : now > e - 300000) (href : t.refresh_token.isSome = true) :
    ((getAccessToken st name now RefreshOutcome.httpError).2 = Option.none ∧
      alGet (getAccessToken st name now RefreshOutcome.httpError).1.tokens name
        = Option.none) ∧
    ((getAccessToken st name now RefreshOutcome.netError).2 = Option.none ∧
      (getAccessToken st name now RefreshOutcome.netError).1 = st) := by
  obtain ⟨rt, hrt⟩ := Option.isSome_iff_exists.mp href
  have hrefresh_http : refreshAccessToken st name now RefreshOutcome.httpError
      = ({ st with tokens := alDel st.tokens name }, Except.error "Token refresh failed") := by
    simp [refreshAccessToken, hget, hrt]
  have hrefresh_net : refreshAccessToken st name now RefreshOutcome.netError
      = (st, Except.error "fetch failed") := by
    simp [refreshAccessToken, hget, hrt]
  constructor
  · simp [getAccessToken, hget, hexp, hbuf, href, hrefresh_http, alGet_alDel_self]
  · simp [getAccessToken, hget, hexp, hbuf, href, hrefresh_net]

/-- Witness for the amended C1 at a concrete state and time. -/
theorem C1_refresh_failure_amended_witness :
    (alGet c1State.tokens "srv" = some c1Record ∧ c1Record.expiresAt = some 1000000 ∧
      (900000 : Int) > 1000000 - 300000 ∧ c1Record.refresh_token.isSome = true) ∧
    (((getAccessToken c1State "srv" 900000 RefreshOutcome.httpError).2 = Option.none ∧
      alGet (getAccessToken c1State "srv" 900000 RefreshOutcome.httpError).1.tokens "srv"
        = Option.none) ∧
    ((getAccessToken c1State "srv" 900000 RefreshOutcome.netError).2 = Option.none ∧
      (getAccessToken c1State "srv" 900000 RefreshOutcome.netError).1 = c1State)) :=
  ⟨⟨rfl, rfl, by decide, rfl⟩,
    C1_refresh_failure_amended c1State "srv" c1Record 1000000 900000 rfl rfl
      (by decide) rfl⟩

/-! ## Claim C2 (confirmed) -/

theorem handleCallback_invalidState (st : OAuthState) (s : String) (now : Int)
    (o : ExchangeOutcome) (h : alGet st.pendingAuthorizations s = Option.none) :
    (handleCallback st s now o).2 = Except.error CallbackError.invalidState := by
  simp [handleCallback, h]

/-- Claim C2: a stored `PendingAuthorization` is consumed exactly once —
`handleCallback` deletes it on the success path, the exchange-failure path and
the expired path, so a second call with the same state always fails with the
"invalid or expired state" error. -/
theorem C2_single_use_state (st : OAuthState) (s : String) (p : PendingAuthorization)
    (now : Int) (o : ExchangeOutcome)
    (hp : alGet st.pendingAuthorizations s = some p) :
    alGet (handleCallback st s now o).1.pendingAuthorizations s = Option.none ∧
    ∀ (now2 : Int) (o2 : ExchangeOutcome),
      (handleCallback (handleCallback st s now o).1 s now2 o2).2
        = Except.error CallbackError.invalidState := by
  have hdel : alGet (handleCallback st s now o).1.pendingAuthorizations s = Option.none := by
    simp only [handleCallback, hp]
    split
    · simp [alGet_alDel_self]
    · cases o <;> simp [alGet_alDel_self, storeTokens]
  refine ⟨hdel, fun now2 o2 => ?_⟩
  exact handleCallback_invalidState _ _ _ _ hdel

def c2Pending : PendingAuthorization :=
  { serverName := "srv", serverUrl := "https://s.example", codeVerifier := "ver"
    clientId := "cid", clientSecret := Option.none, scopes := []
    redirectUri := "http://localhost:3000/oauth/callback", createdAt := 0
    expiresAt := 600000 }

def c2State : OAuthState := ⟨[("state1", c2Pending)], [], [], []⟩

/-- Witness for C2 at a concrete pending authorization. -/
theorem C2_single_use_state_witness :
    alGet c2State.pendingAuthorizations "state1" = some c2Pending ∧
    (alGet (handleCallback c2State "state1" 1
          (ExchangeOutcome.success ⟨some "tok", Option.none, Option.none⟩)).1.pendingAuthorizations
        "state1" = Option.none ∧
      ∀ (now2 : Int) (o2 : ExchangeOutcome),
        (handleCallback (handleCallback c2State "state1" 1
            (ExchangeOutcome.success ⟨some "tok", Option.none, Option.none⟩)).1
          "state1" now2 o2).2 = Except.error CallbackError.invalidState) :=
  ⟨rfl, C2_single_use_state c2State "state1" c2Pending 1
    (ExchangeOutcome.success ⟨some "tok", Option.none, Option.none⟩) rfl⟩

/-! ## Claim C5 (corrected) -/

/-- Claim C5, counterexample: a truthy caller-supplied callback URL is
returned verbatim — no trailing-slash strip, no `/oauth/callback` suffix —
contradicting "in every case ... the path /oauth/callback is appended". -/
theorem C5_counterexample :
    getCallbackUrl (some "https://app.example/") emptyEnv = "https://app.example/" ∧
    getCallbackUrl (some "https://app.example/") emptyEnv
      ≠ "https://app.example/oauth/callback" := by
  refine ⟨rfl, ?_⟩
  decide

/-- Claim C5 as amended: an explicit caller-supplied URL is returned
unchanged; otherwise the precedence is APP_URL, then HEROKU_APP_URL, then
HEROKU_APP_NAME templated into a herokuapp.com domain, then
`http://localhost:{port}`, and only in these environment-derived cases is the
trailing slash stripped and `/oauth/callback` appended. -/
theorem C5_callback_amended (custom : Option String) (env : Env) :
    (jsTruthy custom = true → getCallbackUrl custom env = custom.getD "") ∧
    (jsTruthy custom = false → jsTruthy env.app_url = true →
      getCallbackUrl custom env
        = stripTrailingSlash (env.app_url.getD "") ++ "/oauth/callback") ∧
    (jsTruthy custom = false → jsTruthy env.app_url = false →
      jsTruthy env.heroku_app_url = true →
      getCallbackUrl custom env
        = stripTrailingSlash (env.heroku_app_url.getD "") ++ "/oauth/callback") ∧
    (jsTruthy custom = false → jsTruthy env.app_url = false →
      jsTruthy env.heroku_app_url = false → jsTruthy env.heroku_app_name = true →
      getCallbackUrl custom env
        = stripTrailingSlash ("https://" ++ env.heroku_app_name.getD "" ++ ".herokuapp.com")
            ++ "/oauth/callback") ∧
    (jsTruthy custom = false → jsTruthy env.app_url = false →
      jsTruthy env.heroku_app_url = false → jsTruthy env.heroku_app_name = false →
      getCallbackUrl custom env
        = stripTrailingSlash ("http://localhost:" ++ portString env) ++ "/oauth/callback") := by
  refine ⟨?_, ?_, ?_, ?_, ?_⟩
  · intro h
    simp [getCallbackUrl, h]
  · intro h1 h2
    simp [getCallbackUrl, h1, h2]
  · intro h1 h2 h3
    simp [getCallbackUrl, h1, h2, h3]
  · intro h1 h2 h3 h4
    have hne : ("https://" ++ env.heroku_app_name.getD "" ++ ".herokuapp.com") ≠ "" := by
      intro hcontra
      have hdata := congrArg String.data hcontra
      simp [String.data_append] at hdata
    have hjs : jsTruthy (some ("https://" ++ env.heroku_app_name.getD "" ++ ".herokuapp.com"))
        = true := by
      simp [jsTruthy, hne]
    simp [getCallbackUrl, h1, h2, h3, h4, hjs]
  · intro h1 h2 h3 h4
    simp [getCallbackUrl, h1, h2, h3, h4]

/-- Witness for the amended C5: the caller-supplied branch at a concrete URL. -/
theorem C5_callback_amended_witness :
    jsTruthy (some "https://a.example/cb") = true ∧
    getCallbackUrl (some "https://a.example/cb") emptyEnv
      = (some "https://a.example/cb").getD "" :=
  ⟨by decide, (C5_callback_amended (some "https://a.example/cb") emptyEnv).1 (by decide)⟩

/-! ## Claim C8 (confirmed) -/

/-- Claim C8: `hasValidTokens` is true exactly when a record exists and either
its expiry is null, or not yet reached, or a refresh token is present; it is
true immediately after a successful code exchange or client-credentials
grant, and false immediately after `revokeTokens` (which unconditionally
deletes the record). -/
theorem C8_valid_tokens (st : OAuthState) (name : String) (now : Int) :
    (hasValidTokens st name now = true ↔
      ∃ t, alGet st.tokens name = some t ∧
        (t.expiresAt = Option.none ∨ (∃ e, t.expiresAt = some e ∧ now ≤ e) ∨
          t.refresh_token.isSome = true)) ∧
    (∀ (s : String) (o : ExchangeOutcome) (st1 : OAuthState) (n : String),
        handleCallback st s now o = (st1, Except.ok n) →
        hasValidTokens st1 n now = true) ∧
    (∀ (serverUrl clientId clientSecret : String) (oc : Except String TokenResponse)
        (st1 : OAuthState) (tr : TokenResponse),
        clientCredentialsGrant st name serverUrl clientId clientSecret now oc
          = (st1, Except.ok tr) →
        hasValidTokens st1 name now = true) ∧
    hasValidTokens (revokeTokens st name) name now = false := by
  refine ⟨?_, ?_, ?_, ?_⟩
  · cases hta : alGet st.tokens name with
    | none => simp [hasValidTokens, hta]
    | some t =>
        cases hexp : t.expiresAt with
        | none =>
            constructor
            · intro _
              exact ⟨t, rfl, Or.inl hexp⟩
            · intro _
              simp [hasValidTokens, hta, hexp]
        | some e =>
            by_cases hgt : now > e
            · constructor
              · intro hvt
                simp only [hasValidTokens, hta, hexp, if_pos hgt] at hvt
                exact ⟨t, rfl, Or.inr (Or.inr hvt)⟩
              · rintro ⟨t', ht', hcase⟩
                injection ht' with ht'
                subst ht'
                simp only [hasValidTokens, hta, hexp, if_pos hgt]
                rcases hcase with hnone | ⟨e', he', hle⟩ | hs
                · rw [hexp] at hnone; cases hnone
                · rw [hexp] at he'
                  injection he' with he'
                  omega
                · exact hs
            · constructor
              · intro _
                exact ⟨t, rfl, Or.inr (Or.inl ⟨e, hexp, by omega⟩)⟩
              · intro _
                simp [hasValidTokens, hta, hexp, hgt]
  · intro s o st1 n h
    cases hp : alGet st.pendingAuthorizations s with
    | none =>
        simp only [handleCallback, hp] at h
        simp at h
    | some pending =>
        simp only [handleCallback, hp] at h
        split at h
        · simp at h
        · cases o with
          | failure msg => simp at h
          | success tr =>
              simp only [Prod.mk.injEq, Except.ok.injEq] at h
              obtain ⟨hst, hn⟩ := h
              subst hn
              rw [← hst]
              simp only [hasValidTokens, storeTokens, alGet_alSet_self]
              cases hm : mkExpiry now tr.expires_in with
              | none => simp [hm]
              | some e2 =>
                  have hle := mkExpiry_le now tr.expires_in e2 hm
                  simp [hm, show ¬ now > e2 from by omega]
  · intro su ci cs oc st1 tr h
    cases oc with
    | error e => simp [clientCredentialsGrant] at h
    | ok tr0 =>
        simp only [clientCredentialsGrant, Prod.mk.injEq, Except.ok.injEq] at h
        obtain ⟨hst, -⟩ := h
        rw [← hst]
        exact hasValidTokens_store_mkExpiry st name now _ tr0.expires_in rfl
  · unfold hasValidTokens revokeTokens
    rw [alGet_alDel_self]

/-- Witness for C8 at a concrete grant and revocation. -/
theorem C8_valid_tokens_witness :
    hasValidTokens (revokeTokens emptyOAuthState "srv") "srv" 0 = false ∧
    (∃ st1 tr, clientCredentialsGrant emptyOAuthState "srv" "https://s.example" "cid" "sec" 0
        (Except.ok ⟨some "tok", Option.none, some 3600⟩) = (st1, Except.ok tr) ∧
      hasValidTokens st1 "srv" 0 = true) :=
  ⟨(C8_valid_tokens emptyOAuthState "srv" 0).2.2.2,
    ⟨_, _, rfl, (C8_valid_tokens emptyOAuthState "srv" 0).2.2.1 "https://s.example" "cid"
      "sec" (Except.ok ⟨some "tok", Option.none, some 3600⟩) _ _ rfl⟩⟩

/-! ## Claim C9 (confirmed) -/

/-- Claim C9: `generateCodeChallenge` is the base64url encoding of the SHA-256
digest of the verifier (a pure function of it), decoding back to the 32-byte
digest; `generateCodeVerifier` on 32 random bytes is a 43-character base64url
string, meeting the ≥43-character RFC 7636 minimum. -/
theorem C9_pkce (v : String) (randomBytes : List Nat) (hlen : randomBytes.length = 32) :
    (sha256 (utf8Bytes v)).length = 32 ∧
    base64urlDecode (generateCodeChallenge v).data = sha256 (utf8Bytes v) ∧
    (generateCodeChallenge v).length = 43 ∧
    (generateCodeVerifier randomBytes).length = 43 ∧
    43 ≤ (generateCodeVerifier randomBytes).length := by
  have hdig := sha256_length (utf8Bytes v)
  have hchal : (generateCodeChallenge v).data = base64urlEncode (sha256 (utf8Bytes v)) := rfl
  have hlen43 : (base64urlEncode (sha256 (utf8Bytes v))).length = 43 := by
    rw [base64urlEncode_length, hdig]
    decide
  have hver : (base64urlEncode randomBytes).length = 43 := by
    rw [base64urlEncode_length, hlen]
    decide
  have hver' : (generateCodeVerifier randomBytes).length = 43 := hver
  refine ⟨hdig, ?_, ?_, hver', by rw [hver']⟩
  · rw [hchal]
    exact base64urlDecode_base64urlEncode _ (sha256_bytes_lt _)
  · show (generateCodeChallenge v).data.length = 43
    rw [hchal]
    exact hlen43

/-- Witness for C9 at a concrete verifier and random draw. -/
theorem C9_pkce_witness :
    (List.replicate 32 (0 : Nat)).length = 32 ∧
    ((sha256 (utf8Bytes "v")).length = 32 ∧
      base64urlDecode (generateCodeChallenge "v").data = sha256 (utf8Bytes "v") ∧
      (generateCodeChallenge "v").length = 43 ∧
      (generateCodeVerifier (List.replicate 32 0)).length = 43 ∧
      43 ≤ (generateCodeVerifier (List.replicate 32 0)).length) :=
  ⟨by simp, C9_pkce "v" (List.replicate 32 0) (by simp)⟩

/-! ## Claim C10 (confirmed) -/

/-- Claim C10: inside the 5-minute pre-expiry buffer with no refresh token,
`hasValidTokens` still answers true (the expiry is not yet reached) while
`getAccessToken` deletes the record and returns null — so `hasValidTokens`
does not imply a non-null `getAccessToken`. -/
theorem C10_buffer_divergence (st : OAuthState) (name : String) (t : TokenRecord)
    (e now : Int) (o : RefreshOutcome)
    (hget : alGet st.tokens name = some t) (hexp : t.expiresAt = some e)
    (hrt : t.refresh_token = Option.none) (hbuf : now > e - 300000) (hnotexp : now ≤ e) :
    hasValidTokens st name now = true ∧
    (getAccessToken st name now o).2 = Option.none ∧
    alGet (getAccessToken st name now o).1.tokens name = Option.none := by
  have hnb : ¬ now > e := by omega
  refine ⟨?_, ?_, ?_⟩
  · simp [hasValidTokens, hget, hexp, hnb]
  · simp [getAccessToken, hget, hexp, hbuf, hrt]
  · simp [getAccessToken, hget, hexp, hbuf, hrt, alGet_alDel_self]

def c10Record : TokenRecord :=
  { access_token := some "tok", refresh_token := Option.none
    serverUrl := "https://s.example", clientId := some "cid"
    clientSecret := Option.none, grantType := Option.none
    obtainedAt := 0, expiresAt := some 1000000 }

def c10State : OAuthState := ⟨[], [("srv", c10Record)], [], []⟩

/-- Witness for C10 at a concrete state and time inside the buffer. -/
theorem C10_buffer_divergence_witness :
    (alGet c10State.tokens "srv" = some c10Record ∧ c10Record.expiresAt = some 1000000 ∧
      c10Record.refresh_token = Option.none ∧ (900000 : Int) > 1000000 - 300000 ∧
      (900000 : Int) ≤ 1000000) ∧
    (hasValidTokens c10State "srv" 900000 = true ∧
      (getAccessToken c10State "srv" 900000 RefreshOutcome.netError).2 = Option.none ∧
      alGet (getAccessToken c10State "srv" 900000 RefreshOutcome.netError).1.tokens "srv"
        = Option.none) :=
  ⟨⟨rfl, rfl, rfl, by decide, by decide⟩,
    C10_buffer_divergence c10State "srv" c10Record 1000000 900000 RefreshOutcome.netError
      rfl rfl rfl (by decide) (by decide)⟩

/-! ## Claim C3 (corrected) -/

theorem parseWWW_some_endpoints (params : List (String × String)) (base : String)
    (m : Metadata) (h : parseWWWAuthenticateHeader params base = some m) :
    m.authorization_endpoint.isSome = true ∧ m.token_endpoint.isSome = true := by
  unfold parseWWWAuthenticateHeader at h
  split at h
  · injection h with h
    subst h
    exact ⟨rfl, rfl⟩
  · cases h

def c3Url : UrlParts := ⟨"https://mcp.example/v1/sse", "https:", "mcp.example", "/v1/sse"⟩

def c3EmptyMeta : Metadata := ⟨Option.none, Option.none, Option.none, Option.none⟩

/-- Claim C3, counterexample: when a discovery candidate answers 2xx with a
JSON body that lacks `authorization_endpoint`/`token_endpoint`, the remote
body is returned as-is, so the result does not always contain those
endpoints. -/
theorem C3_counterexample :
    (discoverServerMetadata emptyOAuthState c3Url Option.none
        (fun _ => FetchResult.okJson c3EmptyMeta) Option.none).2.authorization_endpoint
      = Option.none ∧
    (discoverServerMetadata emptyOAuthState c3Url Option.none
        (fun _ => FetchResult.okJson c3EmptyMeta) Option.none).2.token_endpoint
      = Option.none := ⟨rfl, rfl⟩

/-- Claim C3 as amended: for every parseable server URL the discovery returns
without raising and caches the returned record under the server URL; when no
discovery fetch yields a successful JSON body, the synthesized record (from
the `WWW-Authenticate` challenge or the defaults) does contain
`authorization_endpoint` and `token_endpoint` — a successful JSON response is
returned as the remote sent it and may lack them. -/
theorem C3_discovery_amended (st : OAuthState) (u : UrlParts) (custom : Option String)
    (fr : String → FetchResult) (pp : Option (List (String × String))) :
    alGet (discoverServerMetadata st u custom fr pp).1.serverMetadata u.raw
      = some (discoverServerMetadata st u custom fr pp).2 ∧
    (firstOkJson fr (discoveryUrls u custom) = Option.none →
      (discoverServerMetadata st u custom fr pp).2.authorization_endpoint.isSome = true ∧
      (discoverServerMetadata st u custom fr pp).2.token_endpoint.isSome = true) := by
  cases hfo : firstOkJson fr (discoveryUrls u custom) with
  | some m =>
      constructor
      · simp only [discoverServerMetadata, hfo]
        exact alGet_alSet_self _ _ _
      · intro hcontra
        cases hcontra
  | none =>
      cases pp with
      | none =>
          refine ⟨?_, fun _ => ?_⟩
          · simp only [discoverServerMetadata, hfo]
            exact alGet_alSet_self _ _ _
          · simp [discoverServerMetadata, hfo, defaultMetadata]
      | some params =>
          cases hpw : parseWWWAuthenticateHeader params (baseUrlOf u) with
          | some m =>
              refine ⟨?_, fun _ => ?_⟩
              · simp only [discoverServerMetadata, hfo, hpw]
                exact alGet_alSet_self _ _ _
              · simp only [discoverServerMetadata, hfo, hpw]
                exact parseWWW_some_endpoints params (baseUrlOf u) m hpw
          | none =>
              refine ⟨?_, fun _ => ?_⟩
              · simp only [discoverServerMetadata, hfo, hpw]
                exact alGet_alSet_self _ _ _
              · simp [discoverServerMetadata, hfo, hpw, defaultMetadata]

/-- Witness for the amended C3: all candidates fail, the synthesized record is
cached and carries both endpoints. -/
theorem C3_discovery_amended_witness :
    firstOkJson (fun _ => FetchResult.bad) (discoveryUrls c3Url Option.none) = Option.none ∧
    ((discoverServerMetadata emptyOAuthState c3Url Option.none (fun _ => FetchResult.bad)
        Option.none).2.authorization_endpoint.isSome = true ∧
      (discoverServerMetadata emptyOAuthState c3Url Option.none (fun _ => FetchResult.bad)
        Option.none).2.token_endpoint.isSome = true) :=
  ⟨rfl, (C3_discovery_amended emptyOAuthState c3Url Option.none (fun _ => FetchResult.bad)
    Option.none).2 rfl⟩

/-! ## Claim C6 (confirmed) -/

theorem initiate_ok_expiresIn {st : OAuthState} {serverName : String} {u : UrlParts}
    {opts : AuthOptions} {env : Env} {rand : RandomInputs} {now : Int}
    {fr : String → FetchResult} {pp : Option (List (String × String))}
    {reg : Option Registration} {st' : OAuthState} {r : InitiateResult}
    (h : initiateAuthorizationFlow st serverName u opts env rand now fr pp reg
      = (st', Except.ok r)) : r.expiresIn = 600 := by
  simp only [initiateAuthorizationFlow] at h
  repeat' split at h
  all_goals
    injection h with h1 h2
  all_goals
    first
      | exact Except.noConfusion h2
      | (injection h2 with h2
         subst h2
         rfl)

theorem initiate_ok_pending {st : OAuthState} {serverName : String} {u : UrlParts}
    {opts : AuthOptions} {env : Env} {rand : RandomInputs} {now : Int}
    {fr : String → FetchResult} {pp : Option (List (String × String))}
    {reg : Option Registration} {st' : OAuthState} {r : InitiateResult}
    (h : initiateAuthorizationFlow st serverName u opts env rand now fr pp reg
      = (st', Except.ok r)) :
    ∃ p, alGet st'.pendingAuthorizations r.state = some p ∧
      p.createdAt = now ∧ p.expiresAt = now + 600000 := by
  simp only [initiateAuthorizationFlow] at h
  repeat' split at h
  all_goals
    injection h with h1 h2
  all_goals
    first
      | exact Except.noConfusion h2
      | (injection h2 with h2
         subst h1
         subst h2
         exact ⟨_, alGet_alSet_self _ _ _, rfl, rfl⟩)

/-- Claim C6: every successful `initiateAuthorizationFlow` stores a
`PendingAuthorization` whose absolute expiry is exactly its creation
timestamp plus 600 seconds and reports `expiresIn = 600`. -/
theorem C6_initiate_expiry (st : OAuthState) (serverName : String) (u : UrlParts)
    (opts : AuthOptions) (env : Env) (rand : RandomInputs) (now : Int)
    (fr : String → FetchResult) (pp : Option (List (String × String)))
    (reg : Option Registration) (st' : OAuthState) (r : InitiateResult)
    (h : initiateAuthorizationFlow st serverName u opts env rand now fr pp reg
      = (st', Except.ok r)) :
    r.expiresIn = 600 ∧
    ∃ p, alGet st'.pendingAuthorizations r.state = some p ∧
      p.createdAt = now ∧ p.expiresAt = p.createdAt + 600000 := by
  obtain ⟨p, hp, hc, he⟩ := initiate_ok_pending h
  exact ⟨initiate_ok_expiresIn h, p, hp, hc, by rw [hc]; exact he⟩

def c6Opts : AuthOptions :=
  { clientId := some "cid", clientSecret := Option.none, scopes := []
    metadataUrl := Option.none, callbackUrl := Option.none }

/-- Witness for C6 at a concrete successful initiation. -/
theorem C6_initiate_expiry_witness :
    ∃ r, (initiateAuthorizationFlow emptyOAuthState "srv" c3Url c6Opts emptyEnv ⟨[], []⟩ 5
        (fun _ => FetchResult.bad) Option.none Option.none).2 = Except.ok r ∧
      (r.expiresIn = 600 ∧ ∃ p,
        alGet (initiateAuthorizationFlow emptyOAuthState "srv" c3Url c6Opts emptyEnv ⟨[], []⟩ 5
            (fun _ => FetchResult.bad) Option.none Option.none).1.pendingAuthorizations r.state
          = some p ∧ p.createdAt = 5 ∧ p.expiresAt = p.createdAt + 600000) := by
  obtain ⟨r, hr⟩ : ∃ r, (initiateAuthorizationFlow emptyOAuthState "srv" c3Url c6Opts emptyEnv
      ⟨[], []⟩ 5 (fun _ => FetchResult.bad) Option.none Option.none).2
        = Except.ok r := ⟨_, rfl⟩
  have hpair : initiateAuthorizationFlow emptyOAuthState "srv" c3Url c6Opts emptyEnv ⟨[], []⟩ 5
      (fun _ => FetchResult.bad) Option.none Option.none
      = ((initiateAuthorizationFlow emptyOAuthState "srv" c3Url c6Opts emptyEnv ⟨[], []⟩ 5
          (fun _ => FetchResult.bad) Option.none Option.none).1, Except.ok r) := by
    rw [← hr]
  exact ⟨r, hr, C6_initiate_expiry _ _ _ _ _ _ _ _ _ _ _ _ hpair⟩

/-! ## Claim C7 (corrected) -/

def c7Stale : Conn := ⟨0, false, false⟩

def c7Mgr : MgrState := ⟨[("srv", c7Stale)], ["srv"]⟩

/-- Claim C7, counterexample: a held stale connection is removed from the map
and replaced by the new one without its `disconnect`/`close` ever being
called (`closedCalled` stays `false` on the removed client). -/
theorem C7_counterexample :
    (c7Mgr.getConnection "srv" ⟨1, true, false⟩ true).2.1 = [c7Stale] ∧
    c7Stale.closedCalled = false ∧
    alGet (c7Mgr.getConnection "srv" ⟨1, true, false⟩ true).1.connections "srv"
      = some ⟨1, true, false⟩ := ⟨rfl, rfl, rfl⟩

/-- Claim C7 as amended: the manager holds at most one connection per server
name (`getConnection` and `disconnect` preserve distinct keys), and
`disconnect` closes the client before removing it, but the stale-connection
path of `getConnection` removes the old client without closing it: whatever
`getConnection` removes is a previously held, not-connected client returned
exactly as it was stored. -/
theorem C7_connection_amended (mgr : MgrState) (serverName : String) (fresh : Conn)
    (connectOk : Bool) (hnd : (alKeys mgr.connections).Nodup) :
    (alKeys (mgr.getConnection serverName fresh connectOk).1.connections).Nodup ∧
    (alKeys (mgr.disconnect serverName).1.connections).Nodup ∧
    (∀ c ∈ (mgr.disconnect serverName).2, c.closedCalled = true) ∧
    ((mgr.getConnection serverName fresh connectOk).2.1 = [] ∨
      ∃ c, alGet mgr.connections serverName = some c ∧ c.connected = false ∧
        (mgr.getConnection serverName fresh connectOk).2.1 = [c]) := by
  refine ⟨?_, ?_, ?_, ?_⟩
  · cases hc : alGet mgr.connections serverName with
    | some client =>
        by_cases hcon : client.connected = true
        · simpa only [MgrState.getConnection, hc, if_pos hcon] using hnd
        · by_cases hcfg : serverName ∈ mgr.configs
          · by_cases hok : connectOk = true
            · simp only [MgrState.getConnection, hc, if_neg hcon, if_pos hcfg, if_pos hok]
              exact nodup_alKeys_alSet _ _ _ (nodup_alKeys_alDel _ _ hnd)
            · simp only [MgrState.getConnection, hc, if_neg hcon, if_pos hcfg, if_neg hok]
              exact nodup_alKeys_alDel _ _ hnd
          · simp only [MgrState.getConnection, hc, if_neg hcon, if_neg hcfg]
            exact nodup_alKeys_alDel _ _ hnd
    | none =>
        by_cases hcfg : serverName ∈ mgr.configs
        · by_cases hok : connectOk = true
          · simp only [MgrState.getConnection, hc, if_pos hcfg, if_pos hok]
            exact nodup_alKeys_alSet _ _ _ hnd
          · simpa only [MgrState.getConnection, hc, if_pos hcfg, if_neg hok] using hnd
        · simpa only [MgrState.getConnection, hc, if_neg hcfg] using hnd
  · cases hc : alGet mgr.connections serverName with
    | some client =>
        simp only [MgrState.disconnect, hc]
        exact nodup_alKeys_alDel _ _ hnd
    | none =>
        simpa only [MgrState.disconnect, hc] using hnd
  · intro c hcmem
    cases hc : alGet mgr.connections serverName with
    | some client =>
        simp only [MgrState.disconnect, hc, List.mem_singleton] at hcmem
        subst hcmem
        rfl
    | none =>
        simp only [MgrState.disconnect, hc, List.not_mem_nil] at hcmem
  · cases hc : alGet mgr.connections serverName with
    | some client =>
        by_cases hcon : client.connected = true
        · left
          simp only [MgrState.getConnection, hc, if_pos hcon]
        · right
          refine ⟨client, rfl, by simpa using hcon, ?_⟩
          by_cases hcfg : serverName ∈ mgr.configs
          · by_cases hok : connectOk = true
            · simp only [MgrState.getConnection, hc, if_neg hcon, if_pos hcfg, if_pos hok]
            · simp only [MgrState.getConnection, hc, if_neg hcon, if_pos hcfg, if_neg hok]
          · simp only [MgrState.getConnection, hc, if_neg hcon, if_neg hcfg]
    | none =>
        left
        by_cases hcfg : serverName ∈ mgr.configs
        · by_cases hok : connectOk = true
          · simp only [MgrState.getConnection, hc, if_pos hcfg, if_pos hok]
          · simp only [MgrState.getConnection, hc, if_pos hcfg, if_neg hok]
        · simp only [MgrState.getConnection, hc, if_neg hcfg]

/-- Witness for the amended C7 at a concrete manager state. -/
theorem C7_connection_amended_witness :
    (alKeys c7Mgr.connections).Nodup ∧
    ((alKeys (c7Mgr.getConnection "srv" ⟨1, true, false⟩ true).1.connections).Nodup ∧
      (alKeys (c7Mgr.disconnect "srv").1.connections).Nodup ∧
      (∀ c ∈ (c7Mgr.disconnect "srv").2, c.closedCalled = true) ∧
      ((c7Mgr.getConnection "srv" ⟨1, true, false⟩ true).2.1 = [] ∨
        ∃ c, alGet c7Mgr.connections "srv" = some c ∧ c.connected = false ∧
          (c7Mgr.getConnection "srv" ⟨1, true, false⟩ true).2.1 = [c])) :=
  ⟨by decide, C7_connection_amended c7Mgr "srv" ⟨1, true, false⟩ true (by decide)⟩

/-! ## Claim C4 (corrected) -/

theorem connectAttempt_authRequired {cfg' : ClientConfig} {st3 : OAuthState} {now : Int}
    {o : ConnectOracles} {urlS stS : String} {ei : Option Nat}
    (h : (connectAttempt cfg' st3 now o).2.2
      = Except.error (ConnectError.authRequired urlS stS ei)) :
    ei = Option.none ∧ o.attempt = AttemptOutcome.err401 := by
  unfold connectAttempt at h
  cases ha : o.attempt with
  | ok => rw [ha] at h; simp at h
  | errOther msg => rw [ha] at h; simp at h
  | err401 =>
      rw [ha] at h
      refine ⟨?_, rfl⟩
      repeat' split at h
      all_goals simp_all

theorem connectHeadersAndAttempt_authRequired {cfg' : ClientConfig} {st2 : OAuthState}
    {now : Int} {o : ConnectOracles} {urlS stS : String} {ei : Option Nat}
    (h : (connectHeadersAndAttempt cfg' st2 now o).2.2
      = Except.error (ConnectError.authRequired urlS stS ei)) :
    ei = Option.none ∧ o.attempt = AttemptOutcome.err401 := by
  unfold connectHeadersAndAttempt at h
  split at h
  · simp at h
  · exact connectAttempt_authRequired h

theorem connectProbe_authRequired {cfg : ClientConfig} {st1 : OAuthState} {now : Int}
    {o : ConnectOracles} {urlS stS : String} {ei : Option Nat}
    (h : (connectProbe cfg st1 now o).2.2
      = Except.error (ConnectError.authRequired urlS stS ei)) :
    ei = some 600 ∨ (ei = Option.none ∧ o.attempt = AttemptOutcome.err401) := by
  unfold connectProbe at h
  split at h
  · split at h
    · rename_i st2 r heq
      left
      simp only [Except.error.injEq, ConnectError.authRequired.injEq] at h
      rw [← h.2.2, initiate_ok_expiresIn heq]
    · simp at h
  · exact Or.inr (connectHeadersAndAttempt_authRequired h)

theorem connectAuthCheck_authRequired {cfg : ClientConfig} {st1 : OAuthState} {now : Int}
    {o : ConnectOracles} {urlS stS : String} {ei : Option Nat}
    (h : (connectAuthCheck cfg st1 now o).2.2
      = Except.error (ConnectError.authRequired urlS stS ei)) :
    ei = some 600 ∨ (ei = Option.none ∧ o.attempt = AttemptOutcome.err401) := by
  unfold connectAuthCheck at h
  split at h
  · split at h
    · rename_i st2 r heq
      left
      simp only [Except.error.injEq, ConnectError.authRequired.injEq] at h
      rw [← h.2.2, initiate_ok_expiresIn heq]
    · simp at h
  · exact connectProbe_authRequired h

/-- Claim C4 as amended: the `OAuthAuthorizationRequired` errors raised by
`connect` always carry the authorization URL and state; the initial
missing-token path and the probe-upgrade path also carry `expiresIn` (600
seconds), but the 401 re-authorization path constructs the error without
`expiresIn` — any authorization-required error lacking it can only come from
the 401 handler. -/
theorem C4_authorization_required_amended (cfg : ClientConfig) (st : OAuthState) (now : Int)
    (o : ConnectOracles) (urlS stS : String) (ei : Option Nat)
    (h : (connect cfg st now o).2.2 = Except.error (ConnectError.authRequired urlS stS ei)) :
    ei = some 600 ∨ (ei = Option.none ∧ o.attempt = AttemptOutcome.err401) := by
  unfold connect at h
  split at h
  · split at h
    · simp at h
    · split at h
      · exact connectAuthCheck_authRequired h
      · simp at h
  · exact connectAuthCheck_authRequired h

def c4Record : TokenRecord :=
  { access_token := some "tok", refresh_token := Option.none
    serverUrl := "https://mcp.example/v1/sse", clientId := some "cid"
    clientSecret := Option.none, grantType := Option.none
    obtainedAt := 0, expiresAt := Option.none }

def c4State : OAuthState := ⟨[], [("srv", c4Record)], [], []⟩

def c4Cfg : ClientConfig :=
  { name := "srv", url := c3Url, authType := AuthType.oauth2
    apiKey := Option.none, bearerToken := Option.none, oauth := c6Opts }

def c4Oracles : ConnectOracles :=
  { ccOutcome := Except.error "unused", probeRequiresAuth := false
    fr := fun _ => FetchResult.bad, probeParams := Option.none
    registerResult := Option.none, rand := ⟨[], []⟩, rand401 := ⟨[], [1]⟩
    refreshOutcome := RefreshOutcome.netError, attempt := AttemptOutcome.err401
    env := emptyEnv }

/-- Claim C4, counterexample: a 401 on a connected OAuth2 session makes
`connect` raise `OAuthAuthorizationRequired` without any `expiresIn`, so not
every such error carries the expiry. -/
theorem C4_counterexample :
    ¬ (∀ (urlS stS : String) (ei : Option Nat),
        (connect c4Cfg c4State 0 c4Oracles).2.2
          = Except.error (ConnectError.authRequired urlS stS ei) → ei.isSome = true) := by
  intro hclaim
  have h := hclaim _ _ Option.none rfl
  simp at h

/-- Witness for the amended C4: the missing-token path raises the error with
`expiresIn = 600`. -/
theorem C4_authorization_required_amended_witness :
    ∃ urlS stS, (connect c4Cfg emptyOAuthState 0 c4Oracles).2.2
        = Except.error (ConnectError.authRequired urlS stS (some 600)) ∧
      ((some 600 : Option Nat) = some 600 ∨ ((some 600 : Option Nat) = Option.none ∧
        c4Oracles.attempt = AttemptOutcome.err401)) := by
  refine ⟨_, _, rfl, C4_authorization_required_amended c4Cfg emptyOAuthState 0 c4Oracles
    _ _ _ rfl⟩
